import Mathlib

/-!
Shallow embedding of the catalog-backend persistence core
(`plugins/catalog-backend/src/database`): the entity row codec
(`serializeMetadata`, `entityRequestToDb`, `entityDbToResponse`), the entity
store (`addEntity`, `updateEntity`, `entities`, `entity`, `addLocation`,
`addLocationUpdateLogEvent`), the entity merger (`DatabaseManager.mergeEntities`)
and the refresh orchestration (`DatabaseManager.refreshLocations`).

Modelling conventions:
* A JS string-keyed object (labels, annotations, spec payloads) is an
  association list `List (String × String)`; key access is `lookupKey`.
* A JS value that may be `undefined`/`null` is an `Option`; `none` stands for
  an absent key.  JS truthiness on strings (`""` is falsy) and numbers
  (`0` is falsy) is made explicit through `jsStr` and `jsNat`.
* The external uuid source (`uuidv4`) is modelled by explicit fresh-string
  parameters at the single-call level, and by a counter in the orchestration
  state; uuid freshness/non-emptiness is a stated hypothesis where needed.
* JSON (de)serialization of the metadata and spec blobs is elided: the blob
  columns store the structured value that `JSON.stringify` would have
  serialized, since `JSON.parse` round-trips it faithfully.
-/

set_option autoImplicit false

/-- Key access in a JS object modelled as an association list: the first
binding for the key wins. -/
def lookupKey : List (String × String) → String → Option String
  | [], _ => none
  | (k, v) :: t, key => if k = key then some v else lookupKey t key

/-- `x || null` / `x || undefined` on an optional JS string: the empty string
is falsy and collapses to an absent value. -/
def jsStr : Option String → Option String
  | none => none
  | some s => if s = "" then none else some s

/-- JS truthiness of an optional JS number (here a natural): `0` is falsy. -/
def jsNat : Option Nat → Option Nat
  | none => none
  | some n => if n = 0 then none else some n

/-- `DescriptorEnvelope['metadata']`: the structured metadata object.  All
fields are optional keys of a JS object. -/
structure EntityMetadata where
  uid : Option String := none
  etag : Option String := none
  generation : Option Nat := none
  name : Option String := none
  «namespace» : Option String := none
  labels : Option (List (String × String)) := none
  annotations : Option (List (String × String)) := none
deriving DecidableEq, Repr

/-- `DescriptorEnvelope`: apiVersion/kind envelope with optional metadata and
an opaque structured spec payload. -/
structure DescriptorEnvelope where
  apiVersion : String
  kind : String
  metadata : Option EntityMetadata := none
  spec : Option (List (String × String)) := none
deriving DecidableEq, Repr

/-- `DbEntitiesRow`: one row of the `entities` table. -/
structure DbEntitiesRow where
  id : String
  location_id : Option String
  etag : String
  generation : Nat
  api_version : String
  kind : String
  name : Option String
  «namespace» : Option String
  metadata : Option EntityMetadata
  spec : Option (List (String × String))
deriving DecidableEq, Repr

/-- `DbEntityRequest`: an add/update request (optional location plus entity). -/
structure DbEntityRequest where
  locationId : Option String := none
  entity : DescriptorEnvelope
deriving DecidableEq, Repr

/-- `DbEntityResponse`: a read-back result (optional location plus entity). -/
structure DbEntityResponse where
  locationId : Option String
  entity : DescriptorEnvelope
deriving DecidableEq, Repr

/-- `serializeMetadata`: the stored metadata blob is the caller's metadata
with the store-managed keys `uid`, `etag` and `generation` deleted
(`delete output.uid` etc. before `JSON.stringify`). -/
def serializeMetadata : Option EntityMetadata → Option EntityMetadata
  | none => none
  | some m => some { m with uid := none, etag := none, generation := none }

/-- `entityRequestToDb`: serializes a request into a table row.  The `etag`
column receives a freshly generated token (uuid-derived in the source),
passed here as the explicit parameter `etag`; `id` is left as a placeholder
`""` and `generation` as the placeholder `1`, to be overwritten by the
caller where relevant. -/
def entityRequestToDb (request : DbEntityRequest) (etag : String) : DbEntitiesRow :=
  { id := ""
    location_id := request.locationId
    etag := etag
    generation := 1
    api_version := request.entity.apiVersion
    kind := request.entity.kind
    name := jsStr (request.entity.metadata.bind EntityMetadata.name)
    «namespace» := jsStr (request.entity.metadata.bind EntityMetadata.«namespace»)
    metadata := serializeMetadata request.entity.metadata
    spec := request.entity.spec }

/-- JS object spread `\x7b ...a, ...b \x7d` on two metadata objects: a key
present in `b` overrides `a`'s binding, a key absent from `b` keeps `a`'s. -/
def spreadMetadata (a b : EntityMetadata) : EntityMetadata :=
  { uid := (b.uid).orElse fun _ => a.uid
    etag := (b.etag).orElse fun _ => a.etag
    generation := (b.generation).orElse fun _ => a.generation
    name := (b.name).orElse fun _ => a.name
    «namespace» := (b.«namespace»).orElse fun _ => a.«namespace»
    labels := (b.labels).orElse fun _ => a.labels
    annotations := (b.annotations).orElse fun _ => a.annotations }

/-- `entityDbToResponse`: decodes a row.  It starts from row-derived
`uid`/`etag`/`generation` and then spreads the deserialized metadata blob
second, so blob keys override the row-derived ones where both exist. -/
def entityDbToResponse (row : DbEntitiesRow) : DbEntityResponse :=
  let baseMeta : EntityMetadata :=
    { uid := some row.id, etag := some row.etag, generation := some row.generation }
  let meta : EntityMetadata :=
    match row.metadata with
    | some blob => spreadMetadata baseMeta blob
    | none => baseMeta
  { locationId := jsStr row.location_id
    entity :=
      { apiVersion := row.api_version
        kind := row.kind
        metadata := some meta
        spec := row.spec } }

/-- Error taxonomy of the store: `ConflictError`, `InputError`, `NotFoundError`
from `@backstage/backend-common`, carrying their message. -/
inductive DbError where
  | conflict (message : String)
  | inputError (message : String)
  | notFound (message : String)
deriving DecidableEq, Repr

/-- The `message` carried by a store error. -/
def DbError.message : DbError → String
  | .conflict m => m
  | .inputError m => m
  | .notFound m => m

/-- Whether a store result is a `ConflictError`. -/
def isConflict {α : Type} : Except DbError α → Bool
  | .error (.conflict _) => true
  | _ => false

/-- A knex `.where(p).update(patch)`: applies the patch to every matching row
and reports the number of affected rows. -/
def updateWhere (p : DbEntitiesRow → Bool) (f : DbEntitiesRow → DbEntitiesRow)
    (rows : List DbEntitiesRow) : List DbEntitiesRow × Nat :=
  (rows.map fun r => if p r then f r else r, (rows.filter p).length)

/-- The update payload of strategies 1 and 2: every column of `newRow` except
`id` (knex drops keys whose value is `undefined`). -/
def patchFull (newRow : DbEntitiesRow) (gen : Nat) (r : DbEntitiesRow) : DbEntitiesRow :=
  { r with location_id := newRow.location_id, etag := newRow.etag, generation := gen,
           api_version := newRow.api_version, kind := newRow.kind, name := newRow.name,
           «namespace» := newRow.«namespace», metadata := newRow.metadata,
           spec := newRow.spec }

/-- The update payload of strategies 3 and 4: like `patchFull` but with
`name: undefined, namespace: undefined`, so the name and namespace columns
are left untouched. -/
def patchKeepName (newRow : DbEntitiesRow) (gen : Nat) (r : DbEntitiesRow) : DbEntitiesRow :=
  { r with location_id := newRow.location_id, etag := newRow.etag, generation := gen,
           api_version := newRow.api_version, kind := newRow.kind,
           metadata := newRow.metadata, spec := newRow.spec }

/-- `updateEntity`, strategy 1 (uid and generation): conditional update
`WHERE id = uid AND generation = generation`, bumping the generation.  On
success the source returns `entityDbToResponse(newRow)` directly, with no
follow-up select. -/
def updateByUidGen (rows : List DbEntitiesRow) (newRow : DbEntitiesRow)
    (uid : String) (generation : Nat) :
    Except DbError (List DbEntitiesRow × DbEntityResponse) :=
  let u := updateWhere (fun r => decide (r.id = uid ∧ r.generation = generation))
    (patchFull newRow (generation + 1)) rows
  if u.2 = 0 then
    .error (.conflict ("No entity matching uid=" ++ uid ++ ", generation=" ++ toString generation))
  else
    .ok (u.1, entityDbToResponse newRow)

/-- `updateEntity`, strategy 2 (uid only): unconditional update
`WHERE id = uid` with `generation = generation + 1` computed per row
(`tx.raw`), then a follow-up select by uid. -/
def updateByUid (rows : List DbEntitiesRow) (newRow : DbEntitiesRow) (uid : String) :
    Except DbError (List DbEntitiesRow × DbEntityResponse) :=
  let u := updateWhere (fun r => decide (r.id = uid))
    (fun r => patchFull newRow (r.generation + 1) r) rows
  if u.2 = 0 then
    .error (.conflict ("No entity matching uid=" ++ uid))
  else
    match u.1.filter fun r => decide (r.id = uid) with
    | [] => .error (.conflict "Failed to read the generated entity")
    | r :: _ => .ok (u.1, entityDbToResponse r)

/-- `updateEntity`, strategy 3 (name and generation, no uid): conditional
update `WHERE name AND namespace AND generation`, bumping the generation and
leaving name/namespace untouched, then a follow-up select by
name/namespace/bumped generation. -/
def updateByNameGen (rows : List DbEntitiesRow) (newRow : DbEntitiesRow)
    (name : String) (nspace : Option String) (generation : Nat) :
    Except DbError (List DbEntitiesRow × DbEntityResponse) :=
  let nsv := jsStr nspace
  let u := updateWhere
    (fun r => decide (r.name = some name ∧ r.«namespace» = nsv ∧ r.generation = generation))
    (patchKeepName newRow (generation + 1)) rows
  if u.2 = 0 then
    .error (.conflict ("No entity matching name=" ++ name ++ " generation " ++ toString generation))
  else
    match u.1.filter
        (fun r => decide (r.name = some name ∧ r.«namespace» = nsv ∧ r.generation = generation + 1)) with
    | [] => .error (.conflict "Failed to read the generated entity")
    | r :: _ => .ok (u.1, entityDbToResponse r)

/-- `updateEntity`, strategy 4 (name only): read the current row by
name/namespace to capture its id and generation, then conditional update
`WHERE id AND generation` against the captured values, then a follow-up
select by id/bumped generation. -/
def updateByName (rows : List DbEntitiesRow) (newRow : DbEntitiesRow)
    (name : String) (nspace : Option String) :
    Except DbError (List DbEntitiesRow × DbEntityResponse) :=
  let nsv := jsStr nspace
  match rows.filter fun r => decide (r.name = some name ∧ r.«namespace» = nsv) with
  | [] => .error (.conflict ("No entity matching name=" ++ name))
  | old :: _ =>
    let u := updateWhere (fun r => decide (r.id = old.id ∧ r.generation = old.generation))
      (patchKeepName newRow (old.generation + 1)) rows
    if u.2 = 0 then
      .error (.conflict ("Failed to update name=" ++ name))
    else
      match u.1.filter fun r => decide (r.id = old.id ∧ r.generation = old.generation + 1) with
      | [] => .error (.conflict "Failed to read the generated entity")
      | r :: _ => .ok (u.1, entityDbToResponse r)

/-- `Database.updateEntity`: resolves the target through exactly one of four
strategies, keyed on the JS-truthiness of `uid`, `generation` and `name` in
the request metadata, in the source's priority order. -/
def updateEntity (rows : List DbEntitiesRow) (request : DbEntityRequest) (etag : String) :
    Except DbError (List DbEntitiesRow × DbEntityResponse) :=
  match jsStr (request.entity.metadata.bind EntityMetadata.uid),
      jsNat (request.entity.metadata.bind EntityMetadata.generation),
      jsStr (request.entity.metadata.bind EntityMetadata.name) with
  | some uid, some generation, _ =>
      updateByUidGen rows (entityRequestToDb request etag) uid generation
  | some uid, none, _ => updateByUid rows (entityRequestToDb request etag) uid
  | none, some generation, some name =>
      updateByNameGen rows (entityRequestToDb request etag) name
        (request.entity.metadata.bind EntityMetadata.«namespace») generation
  | none, none, some name =>
      updateByName rows (entityRequestToDb request etag) name
        (request.entity.metadata.bind EntityMetadata.«namespace»)
  | none, _, none => .error (.inputError "Cannot update entity that has neither uid nor name")

/-- `Database.transaction` around `updateEntity`: a thrown error aborts the
transaction, so the stored rows are unchanged on any error. -/
def updateEntityTx (rows : List DbEntitiesRow) (request : DbEntityRequest) (etag : String) :
    List DbEntitiesRow × Except DbError DbEntityResponse :=
  match updateEntity rows request etag with
  | .ok (rows2, resp) => (rows2, .ok resp)
  | .error e => (rows, .error e)

/-- `Database.addEntity` composed with the `Database.transaction` wrapper.
The insert's uniqueness constraints are modelled from the spec (the
migrations are not under src): `uid` is unique, and `(name, namespace)` is
unique with a null namespace acting as a distinct partition key; a
constraint violation surfaces through the transaction wrapper as
`ConflictError("Rejected due to a conflicting entity")`.  The fresh uuid for
the `id` column is the explicit parameter `freshId`. -/
def addEntity (rows : List DbEntitiesRow) (request : DbEntityRequest)
    (etag freshId : String) : Except DbError (List DbEntitiesRow × DbEntityResponse) :=
  let newRow := { entityRequestToDb request etag with id := freshId, generation := 1 }
  if rows.any (fun r =>
      decide (r.id = newRow.id ∨ (r.name = newRow.name ∧ r.«namespace» = newRow.«namespace»))) then
    .error (.conflict "Rejected due to a conflicting entity")
  else
    match (rows ++ [newRow]).filter fun r => decide (r.id = freshId) with
    | [] => .error (.conflict "Failed to read the generated entity")
    | r :: _ => .ok (rows ++ [newRow], entityDbToResponse r)

/-- Code-point comparison of character lists (binary collation). -/
def charListLe : List Char → List Char → Bool
  | [], _ => true
  | _ :: _, [] => false
  | a :: as, b :: bs =>
    if a.toNat < b.toNat then true
    else if b.toNat < a.toNat then false
    else charListLe as bs

/-- Code-point comparison of strings (binary collation). -/
def strLe (a b : String) : Bool := charListLe a.data b.data

/-- Namespace-only comparison used by `Database.entities`: SQL `ASC` ordering
on the nullable `namespace` column, nulls first. -/
def nsLe (a b : Option String) : Bool :=
  match a, b with
  | none, _ => true
  | some _, none => false
  | some x, some y => strLe x y

/-- Stable insertion into a namespace-sorted list: the new row goes after
every already-present row whose namespace is `nsLe` it. -/
def insertByNs (r : DbEntitiesRow) : List DbEntitiesRow → List DbEntitiesRow
  | [] => [r]
  | x :: xs => if nsLe x.«namespace» r.«namespace» then x :: insertByNs r xs else r :: x :: xs

/-- `Database.entities`: full scan with `.orderBy('namespace', 'name')`.
knex's `orderBy` takes the second argument as a sort direction and its
formatter falls back to `asc` for any value other than `asc`/`desc`, so the
emitted SQL orders by `namespace` ascending only; `name` does not
participate.  Ties are returned in the engine's scan order, modelled as
insertion order via a stable insertion sort. -/
def entities (rows : List DbEntitiesRow) : List DbEntityResponse :=
  (rows.foldl (fun acc r => insertByNs r acc) []).map entityDbToResponse

/-- `Database.entity`: point lookup by name and `namespace || null`; any
result cardinality other than exactly one yields "not found". -/
def entityOf (rows : List DbEntitiesRow) (name : String) (nspace : Option String) :
    Option DbEntityResponse :=
  match rows.filter fun r => decide (r.name = some name ∧ r.«namespace» = jsStr nspace) with
  | [r] => some (entityDbToResponse r)
  | _ => none

/-- `DbLocationsRow`: one row of the `locations` table. -/
structure DbLocationsRow where
  id : String
  type : String
  target : String
deriving DecidableEq, Repr

/-- `AddDatabaseLocation`: the input of `addLocation`. -/
structure AddDatabaseLocation where
  type : String
  target : String
deriving DecidableEq, Repr

/-- `Database.addLocation`: inside its own transaction, select by target and
return the first pre-existing row if any; otherwise insert a row with a
fresh uuid (the parameter `freshId`) and return the read-back by that id
(the `headD` default is unreachable because the inserted row is present). -/
def addLocation (locs : List DbLocationsRow) (location : AddDatabaseLocation)
    (freshId : String) : List DbLocationsRow × DbLocationsRow :=
  match locs.filter fun l => decide (l.target = location.target) with
  | existing :: _ => (locs, existing)
  | [] =>
    let row : DbLocationsRow := { id := freshId, type := location.type, target := location.target }
    let locs2 := locs ++ [row]
    (locs2, (locs2.filter fun l => decide (l.id = freshId)).headD row)

/-- `lodash.merge` restricted to two flat string-to-string objects: keys of
the destination keep their position and are overridden by the source's
values; keys only in the source are appended in source order. -/
def lodashMergeStringMap (dest src : List (String × String)) : List (String × String) :=
  (dest.map fun p => match lookupKey src p.1 with
    | some v => (p.1, v)
    | none => p)
    ++ src.filter fun q => (lookupKey dest q.1).isNone

/-- `DatabaseManager.mergeEntities`: deep-copy the added entity, then
`lodash.merge` the base's `uid` and `generation` over it (a source value
that is `undefined` leaves the destination untouched), then, if the base has
annotations, `lodash.merge` the whole result over a skeleton carrying the
base's annotations, so the result's annotation keys win and base-only
annotation keys survive. -/
def mergeEntities (base added : DescriptorEnvelope) : DescriptorEnvelope :=
  let buid := base.metadata.bind EntityMetadata.uid
  let bgen := base.metadata.bind EntityMetadata.generation
  let m1 : EntityMetadata :=
    match added.metadata with
    | some m => { m with uid := buid.orElse fun _ => m.uid,
                         generation := bgen.orElse fun _ => m.generation }
    | none => { uid := buid, generation := bgen }
  let result : DescriptorEnvelope := { added with metadata := some m1 }
  match base.metadata.bind EntityMetadata.annotations with
  | some bann =>
    let anns : List (String × String) :=
      match m1.annotations with
      | some ra => lodashMergeStringMap bann ra
      | none => bann
    { result with metadata := some { m1 with annotations := some anns } }
  | none => result

/-- `DatabaseLocationUpdateLogStatus`. -/
inductive DatabaseLocationUpdateLogStatus where
  | SUCCESS
  | FAIL
deriving DecidableEq, Repr

/-- One row of the `location_update_log` table. -/
structure DatabaseLocationUpdateLogEvent where
  id : String
  status : DatabaseLocationUpdateLogStatus
  location_id : String
  entity_name : Option String
  message : Option String
deriving DecidableEq, Repr

/-- The durable state seen by the refresh orchestration, plus a counter
modelling the external uuid source as a stream of distinct strings. -/
structure DbState where
  entities : List DbEntitiesRow
  locations : List DbLocationsRow
  location_update_log : List DatabaseLocationUpdateLogEvent
  uuidCounter : Nat
deriving DecidableEq, Repr

/-- The n-th fresh uuid of the modelled uuid source. -/
def uuidOf (n : Nat) : String := "uuid-" ++ toString n

/-- `Database.addLocationUpdateLogEvent`: pure append of one audit row. -/
def addLocationUpdateLogEvent (s : DbState) (locationId : String)
    (status : DatabaseLocationUpdateLogStatus) (entityName : Option String)
    (message : Option String) : DbState :=
  { s with
    location_update_log := s.location_update_log ++
      [{ id := uuidOf s.uuidCounter, status := status, location_id := locationId,
         entity_name := entityName, message := message }]
    uuidCounter := s.uuidCounter + 1 }

/-- `DatabaseManager.logUpdateSuccess`. -/
def logUpdateSuccess (s : DbState) (locationId : String) (entityName : Option String) : DbState :=
  addLocationUpdateLogEvent s locationId .SUCCESS entityName none

/-- `DatabaseManager.logUpdateFailure`. -/
def logUpdateFailure (s : DbState) (locationId : String) (entityName : Option String)
    (message : Option String) : DbState :=
  addLocationUpdateLogEvent s locationId .FAIL entityName message

/-- Modelled from the spec: the call `database.addOrUpdateEntity(dbc)` in
`refreshLocations` has no implementation anywhere under src (`Database` has
no such method; only the call site and commented-out tests mention it, and
the snapshot would not typecheck).  Spec section 4.4 step 3 says the
orchestrator "merges into the store via add-or-update … may add when absent
and update when present, choosing via existence check", which is precisely
what the otherwise-unused `DatabaseManager.refreshSingleEntity` in
DatabaseManager.ts implements; the call is therefore modelled as that
function: inside one transaction, look the entity up by name/namespace,
update the merge of previous and incoming when present, add when absent.
Errors propagate with their message; a failed transaction leaves the state
unchanged. -/
def refreshSingleEntity (s : DbState) (locationId : String) (entity : DescriptorEnvelope) :
    Except String DbState :=
  match jsStr (entity.metadata.bind EntityMetadata.name) with
  | none => .error "Entities without names are not yet supported"
  | some name =>
    let nspace := entity.metadata.bind EntityMetadata.«namespace»
    match entityOf s.entities name nspace with
    | some previous =>
      let merged := mergeEntities previous.entity entity
      match updateEntity s.entities { locationId := some locationId, entity := merged }
          (uuidOf s.uuidCounter) with
      | .ok (rows2, _) => .ok { s with entities := rows2, uuidCounter := s.uuidCounter + 1 }
      | .error e => .error e.message
    | none =>
      match addEntity s.entities { locationId := some locationId, entity := entity }
          (uuidOf s.uuidCounter) (uuidOf (s.uuidCounter + 1)) with
      | .ok (rows2, _) => .ok { s with entities := rows2, uuidCounter := s.uuidCounter + 2 }
      | .error e => .error e.message

/-- `ParserError`: the parser's failure, optionally carrying the entity name
it was attempting to parse. -/
structure ParserError where
  message : String
  entityName : Option String
deriving DecidableEq, Repr

/-- A `ReaderItem`: either an error marker or raw data. -/
inductive ReaderItem where
  | error (message : String)
  | data (payload : String)
deriving DecidableEq, Repr

/-- The per-item body of the `refreshLocations` loop: error items are only
logged to the debug logger and skipped; data items are parsed, on parse
success persisted via the add-or-update call followed by a SUCCESS log event
tagged with the entity's name, and on any caught error a FAIL log event is
appended, tagged with the entity name only when the error is a
`ParserError`. -/
def processReaderItem (parser : String → Except ParserError DescriptorEnvelope)
    (locationId : String) (s : DbState) (item : ReaderItem) : DbState :=
  match item with
  | .error _ => s
  | .data payload =>
    match parser payload with
    | .error pe => logUpdateFailure s locationId pe.entityName (some pe.message)
    | .ok entity =>
      match refreshSingleEntity s locationId entity with
      | .ok s2 => logUpdateSuccess s2 locationId (entity.metadata.bind EntityMetadata.name)
      | .error msg => logUpdateFailure s locationId none (some msg)

/-- The per-location body of the `refreshLocations` loop: a reader failure
produces one location-level FAIL event; otherwise every item is processed
sequentially and one location-level SUCCESS event (no entity name) is
appended at the end. -/
def processLocation (reader : String → String → Except String (List ReaderItem))
    (parser : String → Except ParserError DescriptorEnvelope)
    (s : DbState) (location : DbLocationsRow) : DbState :=
  match reader location.type location.target with
  | .error msg => logUpdateFailure s location.id none (some msg)
  | .ok items =>
    logUpdateSuccess (items.foldl (processReaderItem parser location.id) s) location.id none

/-- `DatabaseManager.refreshLocations`: read the location list once, then
process each location independently and sequentially. -/
def refreshLocations (reader : String → String → Except String (List ReaderItem))
    (parser : String → Except ParserError DescriptorEnvelope) (s : DbState) : DbState :=
  s.locations.foldl (processLocation reader parser) s

/-- Lookup distributes over append of association lists. -/
theorem lookupKey_append (a b : List (String × String)) (k : String) :
    lookupKey (a ++ b) k = (lookupKey a k).orElse fun _ => lookupKey b k := by
  induction a with
  | nil => simp [lookupKey]
  | cons p t ih =>
    by_cases h : p.1 = k
    · simp [lookupKey, h, Option.orElse]
    · simpa [lookupKey, h] using ih

/-- Lookup in the destination part of `lodashMergeStringMap`: keys keep their
place, values are overridden by the source where it has them. -/
theorem lookupKey_mapOverride (d s : List (String × String)) (k : String) :
    lookupKey (d.map fun p => match lookupKey s p.1 with
      | some v => (p.1, v)
      | none => p) k
      = match lookupKey d k with
        | some v => some ((lookupKey s k).getD v)
        | none => none := by
  induction d with
  | nil => simp [lookupKey]
  | cons p t ih =>
    by_cases h : p.1 = k
    · subst h
      cases hs : lookupKey s p.1 <;> simp [lookupKey, hs]
    · cases hm : lookupKey s p.1 <;> simp [lookupKey, h, hm, ih]

/-- Filtering by "key is new" does not affect lookup of a key absent from the
destination. -/
theorem lookupKey_filterNew (d s : List (String × String)) (k : String)
    (h : lookupKey d k = none) :
    lookupKey (s.filter fun q => (lookupKey d q.1).isNone) k = lookupKey s k := by
  induction s with
  | nil => simp
  | cons q t ih =>
    by_cases hq : q.1 = k
    · simp [List.filter, lookupKey, hq, h]
    · cases hn : (lookupKey d q.1).isNone <;> simp [List.filter, hn, lookupKey, hq, ih]

/-- The observable content of `lodashMergeStringMap`: the source's binding
wins where present, the destination's survives otherwise. -/
theorem lookupKey_lodashMerge (d s : List (String × String)) (k : String) :
    lookupKey (lodashMergeStringMap d s) k
      = (lookupKey s k).orElse fun _ => lookupKey d k := by
  unfold lodashMergeStringMap
  rw [lookupKey_append, lookupKey_mapOverride]
  cases hd : lookupKey d k with
  | some v => cases hs : lookupKey s k <;> simp [Option.orElse, hs]
  | none =>
    rw [lookupKey_filterNew d s k hd]
    cases hs : lookupKey s k <;> simp [Option.orElse, hs]

/-- A list is pointwise related to its image under a map. -/
theorem forall2_map_self {α : Type} (R : α → α → Prop) (g : α → α) (l : List α)
    (h : ∀ x ∈ l, R x (g x)) : List.Forall₂ R l (l.map g) := by
  induction l with
  | nil => simp
  | cons x t ih =>
    exact List.Forall₂.cons (h x (List.mem_cons_self x t))
      (ih fun y hy => h y (List.mem_cons_of_mem x hy))

/-- An updated row list is pointwise related to the original: untouched rows
reflexively, patched rows through the patch. -/
theorem updateWhere_forall2 {R : DbEntitiesRow → DbEntitiesRow → Prop}
    (p : DbEntitiesRow → Bool) (f : DbEntitiesRow → DbEntitiesRow) (rows : List DbEntitiesRow)
    (hrefl : ∀ r, R r r) (hf : ∀ r, p r = true → R r (f r)) :
    List.Forall₂ R rows (updateWhere p f rows).1 := by
  apply forall2_map_self
  intro r _
  by_cases h : p r = true
  · simpa [h] using hf r h
  · simp only [Bool.not_eq_true] at h
    simpa [h] using hrefl r

/-- If the update affected at least one row, some row matched the predicate
and its patched image is in the result. -/
theorem updateWhere_exists {Q : DbEntitiesRow → DbEntitiesRow → Prop}
    (p : DbEntitiesRow → Bool) (f : DbEntitiesRow → DbEntitiesRow) (rows : List DbEntitiesRow)
    (hn : (updateWhere p f rows).2 ≠ 0) (hf : ∀ r, p r = true → Q r (f r)) :
    ∃ old ∈ rows, ∃ new ∈ (updateWhere p f rows).1, Q old new := by
  have hlen : 0 < (rows.filter p).length := Nat.pos_of_ne_zero hn
  obtain ⟨x, hx⟩ := List.exists_mem_of_length_pos hlen
  have hmem := (List.mem_filter.mp hx).1
  have hp := (List.mem_filter.mp hx).2
  refine ⟨x, hmem, f x, ?_, hf x hp⟩
  have hin := List.mem_map_of_mem (fun r => if p r then f r else r) hmem
  simpa [updateWhere, hp] using hin

/-- On success, strategy 1 produced the conditional bulk update and affected
at least one row. -/
theorem updateByUidGen_ok (rows : List DbEntitiesRow) (newRow : DbEntitiesRow)
    (uid : String) (generation : Nat) (rows2 : List DbEntitiesRow) (resp : DbEntityResponse)
    (h : updateByUidGen rows newRow uid generation = Except.ok (rows2, resp)) :
    rows2 = (updateWhere (fun r => decide (r.id = uid ∧ r.generation = generation))
        (patchFull newRow (generation + 1)) rows).1
    ∧ (updateWhere (fun r => decide (r.id = uid ∧ r.generation = generation))
        (patchFull newRow (generation + 1)) rows).2 ≠ 0 := by
  simp only [updateByUidGen] at h
  by_cases hz : (updateWhere (fun r => decide (r.id = uid ∧ r.generation = generation))
      (patchFull newRow (generation + 1)) rows).2 = 0
  · rw [if_pos hz] at h
    exact absurd h (by simp)
  · rw [if_neg hz] at h
    injection h with h'
    injection h' with h1 h2
    exact ⟨h1.symm, hz⟩

/-- On success, strategy 2 produced the unconditional-by-uid bulk update and
affected at least one row. -/
theorem updateByUid_ok (rows : List DbEntitiesRow) (newRow : DbEntitiesRow) (uid : String)
    (rows2 : List DbEntitiesRow) (resp : DbEntityResponse)
    (h : updateByUid rows newRow uid = Except.ok (rows2, resp)) :
    rows2 = (updateWhere (fun r => decide (r.id = uid))
        (fun r => patchFull newRow (r.generation + 1) r) rows).1
    ∧ (updateWhere (fun r => decide (r.id = uid))
        (fun r => patchFull newRow (r.generation + 1) r) rows).2 ≠ 0 := by
  simp only [updateByUid] at h
  by_cases hz : (updateWhere (fun r => decide (r.id = uid))
      (fun r => patchFull newRow (r.generation + 1) r) rows).2 = 0
  · rw [if_pos hz] at h
    exact absurd h (by simp)
  · rw [if_neg hz] at h
    split at h
    · exact absurd h (by simp)
    · refine ⟨?_, hz⟩
      injection h with h'
      injection h' with h1 h2
      exact h1.symm

/-- On success, strategy 3 produced the conditional-by-name bulk update and
affected at least one row. -/
theorem updateByNameGen_ok (rows : List DbEntitiesRow) (newRow : DbEntitiesRow)
    (name : String) (nspace : Option String) (generation : Nat)
    (rows2 : List DbEntitiesRow) (resp : DbEntityResponse)
    (h : updateByNameGen rows newRow name nspace generation = Except.ok (rows2, resp)) :
    rows2 = (updateWhere
        (fun r => decide (r.name = some name ∧ r.«namespace» = jsStr nspace ∧
          r.generation = generation))
        (patchKeepName newRow (generation + 1)) rows).1
    ∧ (updateWhere
        (fun r => decide (r.name = some name ∧ r.«namespace» = jsStr nspace ∧
          r.generation = generation))
        (patchKeepName newRow (generation + 1)) rows).2 ≠ 0 := by
  simp only [updateByNameGen] at h
  by_cases hz : (updateWhere
      (fun r => decide (r.name = some name ∧ r.«namespace» = jsStr nspace ∧
        r.generation = generation))
      (patchKeepName newRow (generation + 1)) rows).2 = 0
  · rw [if_pos hz] at h
    exact absurd h (by simp)
  · rw [if_neg hz] at h
    split at h
    · exact absurd h (by simp)
    · refine ⟨?_, hz⟩
      injection h with h'
      injection h' with h1 h2
      exact h1.symm

/-- On success, strategy 4 produced the read-then-conditional-write against
some captured row's id and generation, and affected at least one row. -/
theorem updateByName_ok (rows : List DbEntitiesRow) (newRow : DbEntitiesRow)
    (name : String) (nspace : Option String)
    (rows2 : List DbEntitiesRow) (resp : DbEntityResponse)
    (h : updateByName rows newRow name nspace = Except.ok (rows2, resp)) :
    ∃ old : DbEntitiesRow,
      rows2 = (updateWhere (fun r => decide (r.id = old.id ∧ r.generation = old.generation))
          (patchKeepName newRow (old.generation + 1)) rows).1
      ∧ (updateWhere (fun r => decide (r.id = old.id ∧ r.generation = old.generation))
          (patchKeepName newRow (old.generation + 1)) rows).2 ≠ 0 := by
  simp only [updateByName] at h
  split at h
  · exact absurd h (by simp)
  · rename_i old rest _
    refine ⟨old, ?_⟩
    by_cases hz : (updateWhere (fun r => decide (r.id = old.id ∧ r.generation = old.generation))
        (patchKeepName newRow (old.generation + 1)) rows).2 = 0
    · rw [if_pos hz] at h
      exact absurd h (by simp)
    · rw [if_neg hz] at h
      split at h
      · exact absurd h (by simp)
      · refine ⟨?_, hz⟩
        injection h with h'
        injection h' with h1 h2
        exact h1.symm

/-- C1: for every successful `updateEntity` call, whichever of the four
strategies (uid+generation, uid only, name+generation, name only) was
selected, every stored row is either untouched or keeps its id with its
generation column bumped by exactly one, and at least one stored row was so
bumped — the target row's generation after the update is its previous value
plus 1. -/
theorem updateEntity_bumps_generation_by_one (rows : List DbEntitiesRow)
    (request : DbEntityRequest) (etag : String) (rows2 : List DbEntitiesRow)
    (resp : DbEntityResponse)
    (h : updateEntity rows request etag = Except.ok (rows2, resp)) :
    List.Forall₂ (fun old new => new = old ∨
      (new.id = old.id ∧ new.generation = old.generation + 1)) rows rows2
    ∧ ∃ old ∈ rows, ∃ new ∈ rows2,
        new.id = old.id ∧ new.generation = old.generation + 1 := by
  unfold updateEntity at h
  split at h
  · obtain ⟨hrows2, hn⟩ := updateByUidGen_ok _ _ _ _ _ _ h
    subst hrows2
    constructor
    · apply updateWhere_forall2
      · intro r
        exact Or.inl rfl
      · intro r hp
        have hp' := of_decide_eq_true hp
        exact Or.inr ⟨by simp [patchFull], by simp [patchFull, hp'.2]⟩
    · apply updateWhere_exists _ _ _ hn
      intro r hp
      have hp' := of_decide_eq_true hp
      exact ⟨by simp [patchFull], by simp [patchFull, hp'.2]⟩
  · obtain ⟨hrows2, hn⟩ := updateByUid_ok _ _ _ _ _ h
    subst hrows2
    constructor
    · apply updateWhere_forall2
      · intro r
        exact Or.inl rfl
      · intro r _
        exact Or.inr ⟨by simp [patchFull], by simp [patchFull]⟩
    · apply updateWhere_exists _ _ _ hn
      intro r _
      exact ⟨by simp [patchFull], by simp [patchFull]⟩
  · obtain ⟨hrows2, hn⟩ := updateByNameGen_ok _ _ _ _ _ _ _ h
    subst hrows2
    constructor
    · apply updateWhere_forall2
      · intro r
        exact Or.inl rfl
      · intro r hp
        have hp' := of_decide_eq_true hp
        exact Or.inr ⟨by simp [patchKeepName], by simp [patchKeepName, hp'.2.2]⟩
    · apply updateWhere_exists _ _ _ hn
      intro r hp
      have hp' := of_decide_eq_true hp
      exact ⟨by simp [patchKeepName], by simp [patchKeepName, hp'.2.2]⟩
  · obtain ⟨old, hrows2, hn⟩ := updateByName_ok _ _ _ _ _ _ h
    subst hrows2
    constructor
    · apply updateWhere_forall2
      · intro r
        exact Or.inl rfl
      · intro r hp
        have hp' := of_decide_eq_true hp
        exact Or.inr ⟨by simp [patchKeepName], by simp [patchKeepName, hp'.2]⟩
    · apply updateWhere_exists _ _ _ hn
      intro r hp
      have hp' := of_decide_eq_true hp
      exact ⟨by simp [patchKeepName], by simp [patchKeepName, hp'.2]⟩
  · exact absurd h (by simp)

/-- A one-row store for exercising the uid+generation strategy. -/
def w1Row : DbEntitiesRow :=
  { id := "u", location_id := none, etag := "e", generation := 1, api_version := "a",
    kind := "k", name := none, «namespace» := none, metadata := none, spec := none }

/-- Request metadata carrying uid "u" and generation 1. -/
def w1ReqMeta : EntityMetadata := { uid := some "u", generation := some 1 }

/-- Update request targeting `w1Row` through strategy 1. -/
def w1Req : DbEntityRequest :=
  { entity := { apiVersion := "a", kind := "k", metadata := some w1ReqMeta } }

/-- The stored row after the strategy-1 update of `w1Row`. -/
def w1RowAfter : DbEntitiesRow :=
  { id := "u", location_id := none, etag := "e2", generation := 2, api_version := "a",
    kind := "k", name := none, «namespace» := none, metadata := some {}, spec := none }

/-- The response of the strategy-1 update of `w1Row` (the serialized request
row, not a read-back). -/
def w1Resp : DbEntityResponse :=
  { locationId := none,
    entity :=
      { apiVersion := "a", kind := "k",
        metadata := some { uid := some "", etag := some "e2", generation := some 1 },
        spec := none } }

deriving instance DecidableEq for Except

/-- Witness for C1 at a concrete successful strategy-1 call. -/
theorem updateEntity_bumps_generation_by_one_witness :
    updateEntity [w1Row] w1Req "e2" = Except.ok ([w1RowAfter], w1Resp)
    ∧ (List.Forall₂ (fun old new => new = old ∨
          (new.id = old.id ∧ new.generation = old.generation + 1)) [w1Row] [w1RowAfter]
       ∧ ∃ old ∈ [w1Row], ∃ new ∈ [w1RowAfter],
           new.id = old.id ∧ new.generation = old.generation + 1) :=
  ⟨by decide,
   updateEntity_bumps_generation_by_one [w1Row] w1Req "e2" [w1RowAfter] w1Resp (by decide)⟩

/-- Strategy 1 reports Conflict when no row matches both uid and generation. -/
theorem updateByUidGen_conflict (rows : List DbEntitiesRow) (newRow : DbEntitiesRow)
    (uid : String) (generation : Nat)
    (hnil : rows.filter (fun r => decide (r.id = uid ∧ r.generation = generation)) = []) :
    updateByUidGen rows newRow uid generation
      = Except.error (DbError.conflict
          ("No entity matching uid=" ++ uid ++ ", generation=" ++ toString generation)) := by
  have hz : (updateWhere (fun r => decide (r.id = uid ∧ r.generation = generation))
      (patchFull newRow (generation + 1)) rows).2 = 0 := by
    show (List.filter (fun r => decide (r.id = uid ∧ r.generation = generation)) rows).length = 0
    rw [hnil]
    rfl
  simp only [updateByUidGen]
  rw [if_pos hz]

/-- C2 (amended): an `updateEntity` call whose request metadata carries a uid
and a nonzero generation strictly smaller than the generation of every
stored row with that uid (in particular smaller than the target row's
current generation) fails with Conflict, and the transaction leaves the
stored rows unchanged.  (The unamended claim, without "nonzero", fails:
a generation of 0 is falsy in JS and selects the unconditional strategy 2
instead — see the counterexample.) -/
theorem updateEntity_stale_generation_conflict (rows : List DbEntitiesRow)
    (request : DbEntityRequest) (etag : String) (u : String) (g : Nat)
    (hu : jsStr (request.entity.metadata.bind EntityMetadata.uid) = some u)
    (hg : jsNat (request.entity.metadata.bind EntityMetadata.generation) = some g)
    (hstale : ∀ r ∈ rows, r.id = u → g < r.generation) :
    isConflict (updateEntity rows request etag) = true
    ∧ (updateEntityTx rows request etag).1 = rows := by
  have hnil : rows.filter (fun r => decide (r.id = u ∧ r.generation = g)) = [] := by
    rw [List.filter_eq_nil_iff]
    intro r hr
    simp only [decide_eq_true_eq, not_and]
    intro hid hgen
    have := hstale r hr hid
    omega
  have hupd : updateEntity rows request etag
      = Except.error (DbError.conflict
          ("No entity matching uid=" ++ u ++ ", generation=" ++ toString g)) := by
    unfold updateEntity
    rw [hu, hg]
    exact updateByUidGen_conflict rows _ u g hnil
  constructor
  · rw [hupd]
    rfl
  · unfold updateEntityTx
    rw [hupd]

/-- A stored row at generation 5 for the stale-generation scenario. -/
def w2Row : DbEntitiesRow :=
  { id := "u", location_id := none, etag := "e", generation := 5, api_version := "a",
    kind := "k", name := none, «namespace» := none, metadata := none, spec := none }

/-- Request metadata carrying uid "u" and the stale generation 3. -/
def w2ReqMeta : EntityMetadata := { uid := some "u", generation := some 3 }

/-- Stale update request against `w2Row`. -/
def w2Req : DbEntityRequest :=
  { entity := { apiVersion := "a", kind := "k", metadata := some w2ReqMeta } }

/-- Witness for the amended C2 at a concrete stale call. -/
theorem updateEntity_stale_generation_conflict_witness :
    (jsStr (w2Req.entity.metadata.bind EntityMetadata.uid) = some "u"
     ∧ jsNat (w2Req.entity.metadata.bind EntityMetadata.generation) = some 3
     ∧ ∀ r ∈ [w2Row], r.id = "u" → 3 < r.generation)
    ∧ (isConflict (updateEntity [w2Row] w2Req "e2") = true
       ∧ (updateEntityTx [w2Row] w2Req "e2").1 = [w2Row]) :=
  ⟨⟨by decide, by decide, by decide⟩,
   updateEntity_stale_generation_conflict [w2Row] w2Req "e2" "u" 3
     (by decide) (by decide) (by decide)⟩

/-- A stored row at generation 1 for the zero-generation scenario. -/
def w2zRow : DbEntitiesRow :=
  { id := "u", location_id := none, etag := "e", generation := 1, api_version := "a",
    kind := "k", name := none, «namespace» := none, metadata := none, spec := none }

/-- Request metadata carrying uid "u" and generation 0. -/
def w2zReqMeta : EntityMetadata := { uid := some "u", generation := some 0 }

/-- Update request with a zero generation against `w2zRow`. -/
def w2zReq : DbEntityRequest :=
  { entity := { apiVersion := "a", kind := "k", metadata := some w2zReqMeta } }

/-- C2 counterexample to the claim as stated: the request carries uid "u" and
generation 0, strictly less than the stored row's generation 1, yet the call
does not fail with Conflict and the stored row is changed — the falsy
generation selects strategy 2, which updates unconditionally. -/
theorem updateEntity_zero_generation_not_conflict :
    w2zReq.entity.metadata.bind EntityMetadata.generation = some 0
    ∧ w2zRow.generation = 1
    ∧ isConflict (updateEntity [w2zRow] w2zReq "e2") = false
    ∧ (updateEntityTx [w2zRow] w2zReq "e2").1 ≠ [w2zRow] := by decide

/-- A stored row with uid "u1" at generation 1. -/
def c3Row : DbEntitiesRow :=
  { id := "u1", location_id := none, etag := "e1", generation := 1, api_version := "a",
    kind := "b", name := some "c", «namespace» := some "d",
    metadata := some { name := some "c", «namespace» := some "d" }, spec := none }

/-- Request metadata carrying the matching uid "u1" and generation 1. -/
def c3ReqMeta : EntityMetadata :=
  { uid := some "u1", generation := some 1, name := some "c", «namespace» := some "d" }

/-- A strategy-1 update request against `c3Row`. -/
def c3Req : DbEntityRequest :=
  { locationId := none,
    entity := { apiVersion := "a", kind := "b2", metadata := some c3ReqMeta } }

/-- C3: a successful strategy-1 (uid+generation) update bumps the stored row
to generation 2, but the returned response is not a freshly-read stored row:
the source returns `entityDbToResponse(newRow)` with no follow-up select, so
the response's metadata.uid is the placeholder "" (not the target uid "u1")
and its metadata.generation is the placeholder 1 (not the incremented 2). -/
theorem updateEntity_uidgen_response_not_read_back :
    (updateEntity [c3Row] c3Req "e2").map
        (fun p => (p.1.map fun r => (r.id, r.generation),
          p.2.entity.metadata.bind EntityMetadata.uid,
          p.2.entity.metadata.bind EntityMetadata.generation))
      = Except.ok ([("u1", 2)], some "", some 1) := by decide

/-- Annotation lookup on an entity: the annotation object's binding for a
key, if the entity has annotations at all. -/
def annLookup (e : DescriptorEnvelope) (k : String) : Option String :=
  match e.metadata.bind EntityMetadata.annotations with
  | some a => lookupKey a k
  | none => none

/-- The merged entity's uid: the base's where defined, otherwise the added
entity's own (lodash.merge skips source keys that resolve to undefined). -/
theorem mergeEntities_uid (base added : DescriptorEnvelope) :
    (mergeEntities base added).metadata.bind EntityMetadata.uid
      = (base.metadata.bind EntityMetadata.uid).orElse
          fun _ => added.metadata.bind EntityMetadata.uid := by
  simp only [mergeEntities]
  cases added.metadata <;>
    cases base.metadata.bind EntityMetadata.annotations <;>
      cases base.metadata.bind EntityMetadata.uid <;> simp [Option.orElse]

/-- The merged entity's generation: the base's where defined, otherwise the
added entity's own. -/
theorem mergeEntities_generation (base added : DescriptorEnvelope) :
    (mergeEntities base added).metadata.bind EntityMetadata.generation
      = (base.metadata.bind EntityMetadata.generation).orElse
          fun _ => added.metadata.bind EntityMetadata.generation := by
  simp only [mergeEntities]
  cases added.metadata <;>
    cases base.metadata.bind EntityMetadata.annotations <;>
      cases base.metadata.bind EntityMetadata.generation <;> simp [Option.orElse]

/-- Annotation lookup after a merge whose base has annotations: the added
entity's binding wins, the base's survives otherwise. -/
theorem mergeEntities_ann (base added : DescriptorEnvelope) (k : String)
    (bann : List (String × String))
    (hb : base.metadata.bind EntityMetadata.annotations = some bann) :
    annLookup (mergeEntities base added) k
      = (annLookup added k).orElse fun _ => lookupKey bann k := by
  simp only [mergeEntities, annLookup]
  rw [hb]
  cases hadd : added.metadata with
  | none => simp [Option.orElse]
  | some m =>
    cases hra : m.annotations with
    | none => simp [hra, Option.orElse]
    | some ra => simp [hra, lookupKey_lodashMerge, Option.orElse]

/-- C4 (amended): whenever the base entity's metadata carries a uid and a
generation, `mergeEntities base added` preserves them in the result, and for
the annotations of a base that has any: a key present in the added entity's
annotations takes the added (incoming) value, and a key present only in the
base's annotations survives with the base's value.  (The unamended claim,
quantifying over bases without a uid or generation, fails: lodash.merge
skips undefined source values, so the added entity's uid would survive —
see the counterexample.) -/
theorem mergeEntities_pins_identity (base added : DescriptorEnvelope) (u : String) (g : Nat)
    (hu : base.metadata.bind EntityMetadata.uid = some u)
    (hg : base.metadata.bind EntityMetadata.generation = some g) :
    (mergeEntities base added).metadata.bind EntityMetadata.uid = some u
    ∧ (mergeEntities base added).metadata.bind EntityMetadata.generation = some g
    ∧ (∀ bann k bv av, base.metadata.bind EntityMetadata.annotations = some bann →
        lookupKey bann k = some bv → annLookup added k = some av →
        annLookup (mergeEntities base added) k = some av)
    ∧ (∀ bann k bv, base.metadata.bind EntityMetadata.annotations = some bann →
        lookupKey bann k = some bv → annLookup added k = none →
        annLookup (mergeEntities base added) k = some bv) := by
  refine ⟨?_, ?_, ?_, ?_⟩
  · rw [mergeEntities_uid, hu]
    rfl
  · rw [mergeEntities_generation, hg]
    rfl
  · intro bann k bv av hb hkb ha
    rw [mergeEntities_ann base added k bann hb, ha]
    rfl
  · intro bann k bv hb hkb ha
    rw [mergeEntities_ann base added k bann hb, ha]
    simpa [Option.orElse] using hkb

/-- A base entity with no metadata at all (hence no uid or generation). -/
def c4Base : DescriptorEnvelope := { apiVersion := "a", kind := "b", metadata := none }

/-- Incoming metadata carrying its own uid "z". -/
def c4AddedMeta : EntityMetadata := { uid := some "z" }

/-- An incoming entity carrying its own uid "z". -/
def c4Added : DescriptorEnvelope := { apiVersion := "x", kind := "y", metadata := some c4AddedMeta }

/-- C4 counterexample to the claim as stated: when the base has no uid, the
merge result's uid is the incoming entity's "z", not the base's (absent)
value — `merge(base, incoming)` does not always preserve
`base.metadata.uid`. -/
theorem mergeEntities_uid_not_always_base :
    (mergeEntities c4Base c4Added).metadata.bind EntityMetadata.uid = some "z"
    ∧ c4Base.metadata.bind EntityMetadata.uid = none := by decide

/-- Base metadata with uid, generation and annotations for the merge witness. -/
def wmBaseMeta : EntityMetadata :=
  { uid := some "u0", generation := some 3, annotations := some [("a", "1"), ("b", "2")] }

/-- Base entity for the merge witness. -/
def wmBase : DescriptorEnvelope := { apiVersion := "a", kind := "k", metadata := some wmBaseMeta }

/-- Incoming metadata with overlapping annotations for the merge witness. -/
def wmAddedMeta : EntityMetadata := { annotations := some [("b", "9"), ("c", "3")] }

/-- Incoming entity for the merge witness. -/
def wmAdded : DescriptorEnvelope :=
  { apiVersion := "a2", kind := "k2", metadata := some wmAddedMeta }

/-- Witness for the amended C4 at a concrete base and incoming entity. -/
theorem mergeEntities_pins_identity_witness :
    (wmBase.metadata.bind EntityMetadata.uid = some "u0"
     ∧ wmBase.metadata.bind EntityMetadata.generation = some 3)
    ∧ ((mergeEntities wmBase wmAdded).metadata.bind EntityMetadata.uid = some "u0"
       ∧ (mergeEntities wmBase wmAdded).metadata.bind EntityMetadata.generation = some 3
       ∧ (∀ bann k bv av, wmBase.metadata.bind EntityMetadata.annotations = some bann →
           lookupKey bann k = some bv → annLookup wmAdded k = some av →
           annLookup (mergeEntities wmBase wmAdded) k = some av)
       ∧ (∀ bann k bv, wmBase.metadata.bind EntityMetadata.annotations = some bann →
           lookupKey bann k = some bv → annLookup wmAdded k = none →
           annLookup (mergeEntities wmBase wmAdded) k = some bv)) :=
  ⟨⟨by decide, by decide⟩,
   mergeEntities_pins_identity wmBase wmAdded "u0" 3 (by decide) (by decide)⟩

/-- Initial store: one location of type "a" with target "b", no entities, an
empty update log. -/
def scenState : DbState :=
  { entities := [], locations := [{ id := "loc-1", type := "a", target := "b" }],
    location_update_log := [], uuidCounter := 0 }

/-- A reader that yields one error item and one data item for target "b". -/
def scenReader : String → String → Except String (List ReaderItem) :=
  fun t target =>
    if t = "a" ∧ target = "b" then Except.ok [.error "bad item", .data "payload"]
    else Except.error "unknown location"

/-- The entity named "c" that the parser produces. -/
def scenEntity : DescriptorEnvelope :=
  { apiVersion := "av", kind := "k", metadata := some { name := some "c" } }

/-- A parser that succeeds on the data item, producing `scenEntity`. -/
def scenParser : String → Except ParserError DescriptorEnvelope :=
  fun payload =>
    if payload = "payload" then Except.ok scenEntity
    else Except.error { message := "could not parse", entityName := none }

/-- C5: refreshing the store with one location whose reader yields one error
item and one data item, where the parser succeeds on the data item with an
entity named "c", produces exactly one SUCCESS log event tagged
entity_name="c", exactly one SUCCESS log event with no entity name (the
location-level event), and zero FAIL events. -/
theorem refreshLocations_scenario :
    ((refreshLocations scenReader scenParser scenState).location_update_log.filter
        fun e => e.status == DatabaseLocationUpdateLogStatus.SUCCESS
          && e.entity_name == some "c").length = 1
    ∧ ((refreshLocations scenReader scenParser scenState).location_update_log.filter
        fun e => e.status == DatabaseLocationUpdateLogStatus.SUCCESS
          && e.entity_name == none).length = 1
    ∧ ((refreshLocations scenReader scenParser scenState).location_update_log.filter
        fun e => e.status == DatabaseLocationUpdateLogStatus.FAIL).length = 0 := by decide

/-- The serializer always strips the store-managed keys from the blob. -/
theorem serializeMetadata_strips (om : Option EntityMetadata) :
    (serializeMetadata om).bind EntityMetadata.uid = none
    ∧ (serializeMetadata om).bind EntityMetadata.etag = none
    ∧ (serializeMetadata om).bind EntityMetadata.generation = none := by
  cases om <;> simp [serializeMetadata]

/-- Decoding a row whose blob carries none of the store-managed keys yields
exactly the row's identity, etag and generation columns. -/
theorem entityDbToResponse_clean_blob (row : DbEntitiesRow)
    (h : row.metadata.bind EntityMetadata.uid = none
      ∧ row.metadata.bind EntityMetadata.etag = none
      ∧ row.metadata.bind EntityMetadata.generation = none) :
    (entityDbToResponse row).entity.metadata.bind EntityMetadata.uid = some row.id
    ∧ (entityDbToResponse row).entity.metadata.bind EntityMetadata.etag = some row.etag
    ∧ (entityDbToResponse row).entity.metadata.bind EntityMetadata.generation
        = some row.generation := by
  obtain ⟨h1, h2, h3⟩ := h
  cases hm : row.metadata with
  | none => simp [entityDbToResponse, hm]
  | some blob =>
    rw [hm] at h1 h2 h3
    simp only [Option.some_bind] at h1 h2 h3
    simp [entityDbToResponse, hm, spreadMetadata, h1, h2, h3, Option.orElse]

/-- C6 (amended): `entityDbToResponse` starts from the row's identity, etag
and generation columns and then spreads the stored metadata blob on top, so
a blob binding for uid/etag/generation would take precedence over the row
columns (see the counterexample); since `serializeMetadata` deletes those
keys before writing, every row whose blob came from this codec decodes to
exactly the row's uid, etag and generation columns. -/
theorem entityDbToResponse_row_fields (row : DbEntitiesRow)
    (h : row.metadata.bind EntityMetadata.uid = none
      ∧ row.metadata.bind EntityMetadata.etag = none
      ∧ row.metadata.bind EntityMetadata.generation = none) :
    (entityDbToResponse row).entity.metadata.bind EntityMetadata.uid = some row.id
    ∧ (entityDbToResponse row).entity.metadata.bind EntityMetadata.etag = some row.etag
    ∧ (entityDbToResponse row).entity.metadata.bind EntityMetadata.generation
        = some row.generation :=
  entityDbToResponse_clean_blob row h

/-- A blob that (contrary to what the serializer produces) embeds its own
uid, etag and generation. -/
def c6BlobMeta : EntityMetadata :=
  { uid := some "X", etag := some "Y", generation := some 9 }

/-- A row whose stored blob embeds store-managed keys. -/
def c6Row : DbEntitiesRow :=
  { id := "row-id", location_id := none, etag := "row-etag", generation := 4,
    api_version := "a", kind := "k", name := none, «namespace» := none,
    metadata := some c6BlobMeta, spec := none }

/-- C6 counterexample to the claim as stated: on a row whose blob embeds
uid/etag/generation, the decoded entity takes the blob's values, not the
row's columns — row-derived values do not take precedence. -/
theorem entityDbToResponse_blob_wins :
    (entityDbToResponse c6Row).entity.metadata.bind EntityMetadata.uid = some "X"
    ∧ (entityDbToResponse c6Row).entity.metadata.bind EntityMetadata.etag = some "Y"
    ∧ (entityDbToResponse c6Row).entity.metadata.bind EntityMetadata.generation = some 9
    ∧ c6Row.id = "row-id" ∧ c6Row.etag = "row-etag" ∧ c6Row.generation = 4 := by decide

/-- A row whose blob was produced by the serializer (which strips the
store-managed keys from caller metadata). -/
def w6Row : DbEntitiesRow :=
  { id := "rid", location_id := none, etag := "ret", generation := 7, api_version := "a",
    kind := "k", name := some "n", «namespace» := none,
    metadata := serializeMetadata (some { uid := some "junk", name := some "n" }),
    spec := none }

/-- Witness for the amended C6 at a concrete codec-produced row. -/
theorem entityDbToResponse_row_fields_witness :
    (w6Row.metadata.bind EntityMetadata.uid = none
     ∧ w6Row.metadata.bind EntityMetadata.etag = none
     ∧ w6Row.metadata.bind EntityMetadata.generation = none)
    ∧ ((entityDbToResponse w6Row).entity.metadata.bind EntityMetadata.uid = some w6Row.id
       ∧ (entityDbToResponse w6Row).entity.metadata.bind EntityMetadata.etag = some w6Row.etag
       ∧ (entityDbToResponse w6Row).entity.metadata.bind EntityMetadata.generation
           = some w6Row.generation) :=
  ⟨by decide, entityDbToResponse_row_fields w6Row (by decide)⟩

/-- C7: an `addEntity` call (composed with its transaction wrapper) with a
fresh, non-empty uuid fails with Conflict when some stored row already has
the request's (name, namespace) pair, and otherwise succeeds with a response
whose metadata.generation is 1 and whose metadata.uid is the fresh uuid —
non-empty and distinct from every previously stored row's id. -/
theorem addEntity_spec (rows : List DbEntitiesRow) (request : DbEntityRequest)
    (etag freshId : String)
    (hne : freshId ≠ "")
    (hfresh : ∀ r ∈ rows, r.id ≠ freshId) :
    ((∃ r ∈ rows, r.name = (entityRequestToDb request etag).name
        ∧ r.«namespace» = (entityRequestToDb request etag).«namespace») →
      isConflict (addEntity rows request etag freshId) = true)
    ∧ ((∀ r ∈ rows, ¬(r.name = (entityRequestToDb request etag).name
        ∧ r.«namespace» = (entityRequestToDb request etag).«namespace»)) →
      ∃ rows2 resp, addEntity rows request etag freshId = Except.ok (rows2, resp)
        ∧ resp.entity.metadata.bind EntityMetadata.generation = some 1
        ∧ resp.entity.metadata.bind EntityMetadata.uid = some freshId
        ∧ resp.entity.metadata.bind EntityMetadata.uid ≠ some ""
        ∧ ∀ r ∈ rows, resp.entity.metadata.bind EntityMetadata.uid ≠ some r.id) := by
  constructor
  · rintro ⟨r, hr, hm1, hm2⟩
    simp only [addEntity]
    split
    · rfl
    · rename_i hfalse
      exfalso
      apply hfalse
      rw [List.any_eq_true]
      refine ⟨r, hr, ?_⟩
      simp only [decide_eq_true_eq]
      exact Or.inr ⟨hm1, hm2⟩
  · intro hnone
    simp only [addEntity]
    split
    · rename_i htrue
      exfalso
      rw [List.any_eq_true] at htrue
      obtain ⟨r, hr, hp⟩ := htrue
      cases of_decide_eq_true hp with
      | inl hid => exact hfresh r hr hid
      | inr hm => exact hnone r hr hm
    · have hfilter : (rows ++
          [{ entityRequestToDb request etag with id := freshId, generation := 1 }]).filter
            (fun r => decide (r.id = freshId))
          = [{ entityRequestToDb request etag with id := freshId, generation := 1 }] := by
        rw [List.filter_append]
        have h1 : rows.filter (fun r => decide (r.id = freshId)) = [] := by
          rw [List.filter_eq_nil_iff]
          intro r hr
          simpa using hfresh r hr
        rw [h1]
        simp
      rw [hfilter]
      have hclean := entityDbToResponse_clean_blob
        { entityRequestToDb request etag with id := freshId, generation := 1 }
        (serializeMetadata_strips request.entity.metadata)
      refine ⟨rows ++ [{ entityRequestToDb request etag with id := freshId, generation := 1 }],
        entityDbToResponse { entityRequestToDb request etag with id := freshId, generation := 1 },
        rfl, hclean.2.2, hclean.1, ?_, ?_⟩
      · rw [hclean.1]
        intro hcontra
        injection hcontra with hcontra'
        exact hne hcontra'
      · intro r hr
        rw [hclean.1]
        intro hcontra
        injection hcontra with hcontra'
        exact hfresh r hr hcontra'.symm

/-- Request metadata from the test fixture (name "c", namespace "d"). -/
def w7ReqMeta : EntityMetadata :=
  { name := some "c", «namespace» := some "d", labels := some [("e", "f")],
    annotations := some [("g", "h")] }

/-- The test fixture's add request. -/
def w7Req : DbEntityRequest :=
  { entity :=
      { apiVersion := "a", kind := "b", metadata := some w7ReqMeta,
        spec := some [("i", "j")] } }

/-- Witness for C7 at a concrete add into an empty store. -/
theorem addEntity_spec_witness :
    ("uid-7" ≠ "" ∧ ∀ r ∈ ([] : List DbEntitiesRow), r.id ≠ "uid-7")
    ∧ (((∃ r ∈ ([] : List DbEntitiesRow),
          r.name = (entityRequestToDb w7Req "etag-7").name
          ∧ r.«namespace» = (entityRequestToDb w7Req "etag-7").«namespace») →
        isConflict (addEntity [] w7Req "etag-7" "uid-7") = true)
       ∧ ((∀ r ∈ ([] : List DbEntitiesRow),
          ¬(r.name = (entityRequestToDb w7Req "etag-7").name
            ∧ r.«namespace» = (entityRequestToDb w7Req "etag-7").«namespace»)) →
        ∃ rows2 resp, addEntity [] w7Req "etag-7" "uid-7" = Except.ok (rows2, resp)
          ∧ resp.entity.metadata.bind EntityMetadata.generation = some 1
          ∧ resp.entity.metadata.bind EntityMetadata.uid = some "uid-7"
          ∧ resp.entity.metadata.bind EntityMetadata.uid ≠ some ""
          ∧ ∀ r ∈ ([] : List DbEntitiesRow),
              resp.entity.metadata.bind EntityMetadata.uid ≠ some r.id)) :=
  ⟨⟨by decide, by decide⟩, addEntity_spec [] w7Req "etag-7" "uid-7" (by decide) (by decide)⟩

/-- A row named "b" in namespace "n", inserted first. -/
def r8b : DbEntitiesRow :=
  { id := "i1", location_id := none, etag := "e1", generation := 1, api_version := "a",
    kind := "k", name := some "b", «namespace» := some "n",
    metadata := some { name := some "b", «namespace» := some "n" }, spec := none }

/-- A row named "a" in the same namespace "n", inserted second. -/
def r8a : DbEntitiesRow :=
  { id := "i2", location_id := none, etag := "e2", generation := 1, api_version := "a",
    kind := "k", name := some "a", «namespace» := some "n",
    metadata := some { name := some "a", «namespace» := some "n" }, spec := none }

/-- C8: on a store holding two rows of the same namespace with names "b"
then "a" (in insertion order), `entities` returns them with "b" before "a":
the emitted ORDER BY sorts by namespace only (knex takes the second
`orderBy` argument as a direction and defaults non-asc/desc values to asc),
so the result is not ordered ascending by the (namespace, name) pair. -/
theorem entities_not_ordered_by_name :
    (entities [r8b, r8a]).map (fun r => r.entity.metadata.bind EntityMetadata.name)
      = [some "b", some "a"]
    ∧ r8b.«namespace» = r8a.«namespace» := by decide

/-- C9: under the location-table invariant that at most one stored row has
the given target, and with a fresh uuid for the first call, calling
`addLocation` twice with the same target returns the identical row both
times, the second call leaves the table unchanged, and the table afterwards
contains exactly one row with that target. -/
theorem addLocation_idempotent (locs : List DbLocationsRow) (location : AddDatabaseLocation)
    (id1 id2 : String)
    (htarget : (locs.filter fun l => decide (l.target = location.target)).length ≤ 1)
    (hfresh : ∀ l ∈ locs, l.id ≠ id1) :
    (addLocation (addLocation locs location id1).1 location id2).2
        = (addLocation locs location id1).2
    ∧ (addLocation (addLocation locs location id1).1 location id2).1
        = (addLocation locs location id1).1
    ∧ ((addLocation (addLocation locs location id1).1 location id2).1.filter
        fun l => decide (l.target = location.target)).length = 1 := by
  cases hcase : locs.filter fun l => decide (l.target = location.target) with
  | cons e rest =>
    have hrest : rest = [] := by
      rw [hcase] at htarget
      cases rest with
      | nil => rfl
      | cons x xs => simp at htarget
    subst hrest
    simp [addLocation, hcase]
  | nil =>
    have h1 : locs.filter (fun l => decide (l.id = id1)) = [] := by
      rw [List.filter_eq_nil_iff]
      intro l hl
      simpa using hfresh l hl
    simp [addLocation, hcase, List.filter_append, h1]

/-- The location input of the idempotence witness. -/
def wLoc : AddDatabaseLocation := { type := "a", target := "b" }

/-- Witness for C9 at a concrete double add into an empty location table. -/
theorem addLocation_idempotent_witness :
    ((([] : List DbLocationsRow).filter fun l => decide (l.target = wLoc.target)).length ≤ 1
     ∧ ∀ l ∈ ([] : List DbLocationsRow), l.id ≠ "id-1")
    ∧ ((addLocation (addLocation [] wLoc "id-1").1 wLoc "id-2").2
          = (addLocation [] wLoc "id-1").2
       ∧ (addLocation (addLocation [] wLoc "id-1").1 wLoc "id-2").1
          = (addLocation [] wLoc "id-1").1
       ∧ ((addLocation (addLocation [] wLoc "id-1").1 wLoc "id-2").1.filter
          fun l => decide (l.target = wLoc.target)).length = 1) :=
  ⟨⟨by decide, by decide⟩,
   addLocation_idempotent [] wLoc "id-1" "id-2" (by decide) (by decide)⟩

/-- A bulk update whose patch leaves name and namespace untouched preserves
the name/namespace columns of every row. -/
theorem updateWhere_map_preserves (p : DbEntitiesRow → Bool) (f : DbEntitiesRow → DbEntitiesRow)
    (rows : List DbEntitiesRow)
    (hf : ∀ r, (f r).name = r.name ∧ (f r).«namespace» = r.«namespace») :
    (updateWhere p f rows).1.map (fun r => (r.name, r.«namespace»))
      = rows.map fun r => (r.name, r.«namespace») := by
  show (rows.map fun r => if p r then f r else r).map (fun r => (r.name, r.«namespace»))
    = rows.map fun r => (r.name, r.«namespace»)
  induction rows with
  | nil => rfl
  | cons x t ih =>
    simp only [List.map_cons, List.cons.injEq]
    refine ⟨?_, ih⟩
    by_cases hp : p x = true
    · simp [hp, (hf x).1, (hf x).2]
    · simp only [Bool.not_eq_true] at hp
      simp [hp]

/-- C10: on every successful `updateEntity` call without a (truthy) uid in
the request metadata (strategies 3 and 4), the name and namespace columns of
every stored row are unchanged — the request's name/namespace only locate
the row — whereas on every successful call with a uid (strategies 1 and 2),
each row is either untouched or has its name and namespace columns
overwritten with the request's serialized values, and at least one row was
so overwritten. -/
theorem updateEntity_name_namespace_columns (rows : List DbEntitiesRow)
    (request : DbEntityRequest) (etag : String) (rows2 : List DbEntitiesRow)
    (resp : DbEntityResponse)
    (h : updateEntity rows request etag = Except.ok (rows2, resp)) :
    (jsStr (request.entity.metadata.bind EntityMetadata.uid) = none →
      rows2.map (fun r => (r.name, r.«namespace»))
        = rows.map fun r => (r.name, r.«namespace»))
    ∧ (∀ u, jsStr (request.entity.metadata.bind EntityMetadata.uid) = some u →
      List.Forall₂ (fun old new => new = old ∨
          (new.name = (entityRequestToDb request etag).name
           ∧ new.«namespace» = (entityRequestToDb request etag).«namespace»)) rows rows2
      ∧ ∃ new ∈ rows2, new.name = (entityRequestToDb request etag).name
          ∧ new.«namespace» = (entityRequestToDb request etag).«namespace») := by
  unfold updateEntity at h
  cases hu : jsStr (request.entity.metadata.bind EntityMetadata.uid) with
  | some u =>
    rw [hu] at h
    constructor
    · intro hnone
      cases hnone
    · intro u' _
      cases hg : jsNat (request.entity.metadata.bind EntityMetadata.generation) with
      | some g =>
        rw [hg] at h
        have h' : updateByUidGen rows (entityRequestToDb request etag) u g
            = Except.ok (rows2, resp) := h
        obtain ⟨hrows2, hn⟩ := updateByUidGen_ok _ _ _ _ _ _ h'
        subst hrows2
        constructor
        · apply updateWhere_forall2
          · intro r
            exact Or.inl rfl
          · intro r _
            exact Or.inr ⟨rfl, rfl⟩
        · obtain ⟨o, _, n, hn', hq⟩ :=
            @updateWhere_exists
              (fun _ new => new.name = (entityRequestToDb request etag).name
                ∧ new.«namespace» = (entityRequestToDb request etag).«namespace»)
              (fun r => decide (r.id = u ∧ r.generation = g))
              (patchFull (entityRequestToDb request etag) (g + 1)) rows hn
              (fun r _ => ⟨rfl, rfl⟩)
          exact ⟨n, hn', hq⟩
      | none =>
        rw [hg] at h
        have h' : updateByUid rows (entityRequestToDb request etag) u
            = Except.ok (rows2, resp) := h
        obtain ⟨hrows2, hn⟩ := updateByUid_ok _ _ _ _ _ h'
        subst hrows2
        constructor
        · apply updateWhere_forall2
          · intro r
            exact Or.inl rfl
          · intro r _
            exact Or.inr ⟨rfl, rfl⟩
        · obtain ⟨o, _, n, hn', hq⟩ :=
            @updateWhere_exists
              (fun _ new => new.name = (entityRequestToDb request etag).name
                ∧ new.«namespace» = (entityRequestToDb request etag).«namespace»)
              (fun r => decide (r.id = u))
              (fun r => patchFull (entityRequestToDb request etag) (r.generation + 1) r) rows hn
              (fun r _ => ⟨rfl, rfl⟩)
          exact ⟨n, hn', hq⟩
  | none =>
    rw [hu] at h
    constructor
    · intro _
      cases hg : jsNat (request.entity.metadata.bind EntityMetadata.generation) with
      | some g =>
        rw [hg] at h
        cases hnm : jsStr (request.entity.metadata.bind EntityMetadata.name) with
        | some nm =>
          rw [hnm] at h
          have h' : updateByNameGen rows (entityRequestToDb request etag) nm
              (request.entity.metadata.bind EntityMetadata.«namespace») g
              = Except.ok (rows2, resp) := h
          obtain ⟨hrows2, _⟩ := updateByNameGen_ok _ _ _ _ _ _ _ h'
          subst hrows2
          exact updateWhere_map_preserves _ _ _ fun r => ⟨rfl, rfl⟩
        | none =>
          rw [hnm] at h
          exact Except.noConfusion h
      | none =>
        rw [hg] at h
        cases hnm : jsStr (request.entity.metadata.bind EntityMetadata.name) with
        | some nm =>
          rw [hnm] at h
          have h' : updateByName rows (entityRequestToDb request etag) nm
              (request.entity.metadata.bind EntityMetadata.«namespace»)
              = Except.ok (rows2, resp) := h
          obtain ⟨old, hrows2, _⟩ := updateByName_ok _ _ _ _ _ _ h'
          subst hrows2
          exact updateWhere_map_preserves _ _ _ fun r => ⟨rfl, rfl⟩
        | none =>
          rw [hnm] at h
          exact Except.noConfusion h
    · intro u' hu'
      cases hu'

/-- A named stored row for the name-only update witness. -/
def w4Row : DbEntitiesRow :=
  { id := "u", location_id := none, etag := "e", generation := 3, api_version := "a",
    kind := "k", name := some "n", «namespace» := none,
    metadata := some { name := some "n" }, spec := none }

/-- A name-only (strategy 4) update request against `w4Row`. -/
def w4Req : DbEntityRequest :=
  { entity := { apiVersion := "a", kind := "k2", metadata := some { name := some "n" } } }

/-- The stored row after the strategy-4 update of `w4Row`. -/
def w4RowAfter : DbEntitiesRow :=
  { id := "u", location_id := none, etag := "e2", generation := 4, api_version := "a",
    kind := "k2", name := some "n", «namespace» := none,
    metadata := some { name := some "n" }, spec := none }

/-- The read-back response of the strategy-4 update of `w4Row`. -/
def w4Resp : DbEntityResponse :=
  { locationId := none,
    entity :=
      { apiVersion := "a", kind := "k2",
        metadata := some
          { uid := some "u", etag := some "e2", generation := some 4, name := some "n" },
        spec := none } }

/-- Witness for C10 at a concrete successful strategy-4 call. -/
theorem updateEntity_name_namespace_columns_witness :
    updateEntity [w4Row] w4Req "e2" = Except.ok ([w4RowAfter], w4Resp)
    ∧ ((jsStr (w4Req.entity.metadata.bind EntityMetadata.uid) = none →
        [w4RowAfter].map (fun r => (r.name, r.«namespace»))
          = [w4Row].map fun r => (r.name, r.«namespace»))
       ∧ (∀ u, jsStr (w4Req.entity.metadata.bind EntityMetadata.uid) = some u →
        List.Forall₂ (fun old new => new = old ∨
            (new.name = (entityRequestToDb w4Req "e2").name
             ∧ new.«namespace» = (entityRequestToDb w4Req "e2").«namespace»)) [w4Row] [w4RowAfter]
        ∧ ∃ new ∈ [w4RowAfter], new.name = (entityRequestToDb w4Req "e2").name
            ∧ new.«namespace» = (entityRequestToDb w4Req "e2").«namespace»)) :=
  ⟨by decide,
   updateEntity_name_namespace_columns [w4Row] w4Req "e2" [w4RowAfter] w4Resp (by decide)⟩
